import Mathlib

/-!
Verification development for the MonarchMoney MCP server repository.

The repository exposes a third-party finance API as schema-validated tools.
This file gives a shallow embedding of the core pure logic:
  * `generateInputSchema` / `parseSchema` — the schema deriver and its
    validation semantics (src/tools.ts, zod-based),
  * `adaptArguments` — the argument adapter (src/tools.ts),
  * `createToolNames` / `runToolHandler` — the catalog builder's name
    synthesis and the per-tool handler control flow (src/tools.ts),
  * `formatResult` and the domain renderers (src/formatters/monarch.ts),
  * `parseNaturalLanguageQuery` — the free-text query parser (src/index.ts).

JavaScript dynamic values are modelled by the inductive `Value`; JS numbers
are modelled as exact rationals (every numeric literal and arithmetic
operation exercised by the theorems below is exactly representable in
double precision, so no rounding divergence arises on the inputs studied).
The current instant (`new Date()`) is made explicit as a `today : Nat`
parameter counting days since the Unix epoch, interpreted in UTC.
-/

/-- Model of a JavaScript runtime value, as far as the embedded code
inspects one: `undefined`, `null`, booleans, (non-NaN) numbers, the NaN
number, strings, arrays and plain objects (ordered key/value lists). -/
inductive Value where
  | vUndef : Value
  | vNull : Value
  | vBool : Bool → Value
  | vNum : ℚ → Value
  | vNaN : Value
  | vStr : String → Value
  | vArr : List Value → Value
  | vObj : List (String × Value) → Value

open Value

/-- A JavaScript object modelled as an insertion-ordered key/value list;
objects produced by the embedded code never carry duplicate keys. -/
abbrev JRecord := List (String × Value)

/-- Property read `r[key]`: the value bound to `key`, or `undefined`. -/
def jsGet (r : JRecord) (key : String) : Value :=
  match r.find? (fun kv => kv.1 == key) with
  | some kv => kv.2
  | none => vUndef

/-- Property write `r[key] = v`: replaces an existing binding in place
(JS objects keep the original key order) or appends a new one. -/
def jsSet (r : JRecord) (key : String) (v : Value) : JRecord :=
  if r.any (fun kv => kv.1 == key) then
    r.map (fun kv => if kv.1 == key then (kv.1, v) else kv)
  else
    r ++ [(key, v)]

/-- JS falsiness: `undefined`, `null`, `false`, `0`, `NaN` and `""`. -/
def jsFalsy : Value → Bool
  | vUndef => true
  | vNull => true
  | vBool b => !b
  | vNum q => q == 0
  | vNaN => true
  | vStr s => s == ""
  | vArr _ => false
  | vObj _ => false

/-- JS truthiness, the negation of `jsFalsy`. -/
def jsTruthy (v : Value) : Bool := !jsFalsy v

/-- JS `a || b`. -/
def jsOr (a b : Value) : Value := if jsTruthy a then a else b

/-- JS `a ?? b`. -/
def jsNullish (a b : Value) : Value :=
  match a with
  | vUndef => b
  | vNull => b
  | _ => a

/-- Optional chaining `v?.key` followed by a property read: yields
`undefined` when `v` is not an object. -/
def jsGetF (v : Value) (key : String) : Value :=
  match v with
  | vObj r => jsGet r key
  | _ => vUndef

/-- JS `s.includes(sub)`: substring containment. -/
def jsIncludes (s sub : String) : Bool := decide (sub.data <:+: s.data)

/-- JS `s.startsWith(sub)`: prefix test. -/
def jsStartsWith (s sub : String) : Bool := decide (sub.data <+: s.data)

/-- JS `Number(...)` coercion restricted to the shapes reaching arithmetic
in the embedded code (numbers, booleans, null); other shapes would be NaN
in JS and are mapped to 0 here — every theorem below constrains its inputs
so that this corner is never hit. -/
def toNumber : Value → ℚ
  | vNum q => q
  | vBool true => 1
  | vBool false => 0
  | vNull => 0
  | _ => 0

/-- JS `Math.round`: floor of `q + 1/2` (halves round towards +∞). -/
def jsRound (q : ℚ) : Int := ⌊q + (1 : ℚ) / 2⌋

/-- JS `Math.abs` on an exact rational. -/
def jsAbs (q : ℚ) : ℚ := |q|

/-- `Array.from(new Set(l))`: deduplication keeping first occurrences. -/
def jsDedup (l : List String) : List String :=
  l.foldl (fun acc a => if a ∈ acc then acc else acc ++ [a]) []

/-- ASCII lower-casing, modelling `String.prototype.toLowerCase` on the
ASCII queries the parser is exercised with. -/
def jsToLower (s : String) : String := ⟨s.data.map Char.toLower⟩

section Dates

/-- A proleptic-Gregorian calendar date. -/
structure CivilDate where
  y : Nat
  m : Nat
  d : Nat
deriving DecidableEq

/-- Civil date of a day count since 1970-01-01 (Howard Hinnant's
`civil_from_days`, specialised to non-negative day counts, i.e. dates on
or after the epoch); this is the date `new Date()` renders in UTC. -/
def civilFromDays (n : Nat) : CivilDate :=
  let z := n + 719468
  let era := z / 146097
  let doe := z % 146097
  let yoe := (doe - doe / 1460 + doe / 36524 - doe / 146096) / 365
  let y := yoe + era * 400
  let doy := doe - (365 * yoe + yoe / 4 - yoe / 100)
  let mp := (5 * doy + 2) / 153
  let d := doy - (153 * mp + 2) / 5 + 1
  let m := if mp < 10 then mp + 3 else mp - 9
  ⟨y + (if m ≤ 2 then 1 else 0), m, d⟩

/-- Days since 1970-01-01 of a civil date (Hinnant's `days_from_civil`,
for dates on or after the epoch). -/
def daysFromCivil (y m d : Nat) : Nat :=
  let yAdj := y - (if m ≤ 2 then 1 else 0)
  let era := yAdj / 400
  let yoe := yAdj % 400
  let mp := if 2 < m then m - 3 else m + 9
  let doy := (153 * mp + 2) / 5 + d - 1
  let doe := yoe * 365 + yoe / 4 - yoe / 100 + doy
  era * 146097 + doe - 719468

/-- Decimal digit character of `n % 10`. -/
def digitChar10 (n : Nat) : Char := Nat.digitChar (n % 10)

/-- `YYYY-MM-DD` rendering of a civil date, as produced by
`date.toISOString().split("T")[0]` for years 1970–9999 (the only years a
non-negative day count bounded by 9999-12-31 can produce). -/
def isoOfCivil (c : CivilDate) : String :=
  ⟨[digitChar10 (c.y / 1000), digitChar10 (c.y / 100), digitChar10 (c.y / 10),
    digitChar10 c.y, '-', digitChar10 (c.m / 10), digitChar10 c.m, '-',
    digitChar10 (c.d / 10), digitChar10 c.d]⟩

/-- `YYYY-MM-DD` rendering of a day count since the epoch. -/
def isoDateOfEpochDays (n : Nat) : String := isoOfCivil (civilFromDays n)

/-- Checks that a string has the ten-character shape `YYYY-MM-DD`:
four digits, a dash, two digits, a dash, two digits. -/
def isYYYYMMDD (s : String) : Bool :=
  match s.data with
  | [a, b, c, d, e, f, g, h, i, j] =>
    a.isDigit && b.isDigit && c.isDigit && d.isDigit && e == '-' &&
    f.isDigit && g.isDigit && h == '-' && i.isDigit && j.isDigit
  | _ => false

end Dates

section Tools

/-- The fixed SDK module groups enumerated by the catalog builder
(src/tools.ts `sdkModules`). -/
def sdkModules : List String :=
  ["accounts", "transactions", "budgets", "categories", "cashflow",
   "recurring", "institutions", "insights"]

/-- Identity keys of operations invoked with no arguments
(src/tools.ts `noArgumentMethods`). -/
def noArgumentMethods : List String :=
  ["accounts_getAll", "accounts_getBalances", "accounts_getTypeOptions",
   "transactions_getTransactionsSummary",
   "transactions_getTransactionsSummaryCard", "budgets_getBudgets",
   "categories_getCategories", "cashflow_getCashflowSummary",
   "recurring_getRecurringStreams", "institutions_getInstitutions",
   "insights_getInsights", "get_me"]

/-- The distinct schema shapes `generateInputSchema` can return; each is
interpreted by `parseSchema` below with zod's validation semantics. -/
inductive SchemaKind where
  | idLookup
  | transactionDetail
  | txFilter
  | historyRange
  | updatePayload
  | createPayload
  | accountsGetAll
  | verbosityOnly
  | emptyObject
deriving DecidableEq

/-- Schema deriver (src/tools.ts `generateInputSchema`): picks a schema
shape from the module and method name by the source's heuristics, in the
source's order. -/
def generateInputSchema (moduleName methodName : String) : SchemaKind :=
  if jsIncludes methodName "getById" || jsIncludes methodName "ById" then
    .idLookup
  else if moduleName == "transactions" && methodName == "getTransactionDetails" then
    .transactionDetail
  else if jsIncludes methodName "Transactions" || methodName == "getTransactions" then
    .txFilter
  else if jsIncludes methodName "History" || jsIncludes methodName "OverTime" then
    .historyRange
  else if jsIncludes methodName "update" then
    .updatePayload
  else if jsIncludes methodName "create" then
    .createPayload
  else if moduleName == "accounts" && methodName == "getAll" then
    .accountsGetAll
  else if (jsIncludes methodName "getAll" || jsStartsWith methodName "get")
      && !jsIncludes methodName "ById" then
    .verbosityOnly
  else
    .emptyObject

/-- zod: a required `z.string()` field. -/
def reqStrField (r : JRecord) (key : String) : Except String (List (String × Value)) :=
  match jsGet r key with
  | vStr s => .ok [(key, vStr s)]
  | _ => .error ("Required string field missing: " ++ key)

/-- zod: an optional `z.string()` field (omitted from the output when the
input carries no value for it). -/
def optStrField (r : JRecord) (key : String) : Except String (List (String × Value)) :=
  match jsGet r key with
  | vUndef => .ok []
  | vStr s => .ok [(key, vStr s)]
  | _ => .error ("Expected string: " ++ key)

/-- zod: an optional `z.boolean()` field. -/
def optBoolField (r : JRecord) (key : String) : Except String (List (String × Value)) :=
  match jsGet r key with
  | vUndef => .ok []
  | vBool b => .ok [(key, vBool b)]
  | _ => .error ("Expected boolean: " ++ key)

/-- zod: an optional `z.array(z.string())` field. -/
def optStrListField (r : JRecord) (key : String) : Except String (List (String × Value)) :=
  match jsGet r key with
  | vUndef => .ok []
  | vArr items =>
    if items.all (fun v => match v with | vStr _ => true | _ => false) then
      .ok [(key, vArr items)]
    else .error ("Expected array of strings: " ++ key)
  | _ => .error ("Expected array: " ++ key)

/-- zod: the optional `z.tuple([z.number(), z.number().nullable()])`
field used for `absAmountRange`. -/
def optAmountRangeField (r : JRecord) (key : String) :
    Except String (List (String × Value)) :=
  match jsGet r key with
  | vUndef => .ok []
  | vArr [vNum a, vNum b] => .ok [(key, vArr [vNum a, vNum b])]
  | vArr [vNum a, vNull] => .ok [(key, vArr [vNum a, vNull])]
  | _ => .error ("Expected [number, number | null]: " ++ key)

/-- zod: `z.number().int().positive().optional().default(dflt)` when
`strictlyPos` is `true`, `.nonnegative()` otherwise; `undefined` takes the
default, present values are validated unclamped. -/
def defIntField (r : JRecord) (key : String) (dflt : ℚ) (strictlyPos : Bool) :
    Except String (List (String × Value)) :=
  match jsGet r key with
  | vUndef => .ok [(key, vNum dflt)]
  | vNum q =>
    if q.den == 1 && (if strictlyPos then (0 : ℚ) < q else (0 : ℚ) ≤ q) then
      .ok [(key, vNum q)]
    else .error ("Expected valid integer: " ++ key)
  | _ => .error ("Expected number: " ++ key)

/-- zod: the `verbosity` enum with default `"summary"`. -/
def verbosityField (r : JRecord) : Except String (List (String × Value)) :=
  match jsGet r "verbosity" with
  | vUndef => .ok [("verbosity", vStr "summary")]
  | vStr s =>
    if s == "brief" || s == "summary" || s == "detailed" then
      .ok [("verbosity", vStr s)]
    else .error "Invalid verbosity"
  | _ => .error "Invalid verbosity"

/-- zod: a required `z.record(z.any())` field (`data`). -/
def reqRecordField (r : JRecord) (key : String) : Except String (List (String × Value)) :=
  match jsGet r key with
  | vObj kvs => .ok [(key, vObj kvs)]
  | _ => .error ("Required record field missing: " ++ key)

/-- zod object parsing: the input must be a plain object. -/
def expectObj : Value → Except String JRecord
  | vObj r => .ok r
  | _ => .error "Expected object"

/-- Validation semantics of each schema shape, following zod's `parse`:
unknown keys are stripped, defaulted fields materialise on `undefined`,
optional fields without a value are omitted from the output. -/
def parseSchema (k : SchemaKind) (input : Value) : Except String Value := do
  let r ← expectObj input
  match k with
  | .idLookup => do
    let f ← reqStrField r "id"
    .ok (vObj f)
  | .transactionDetail => do
    let f ← reqStrField r "transactionId"
    .ok (vObj f)
  | .txFilter => do
    let f1 ← defIntField r "limit" 50 true
    let f2 ← defIntField r "offset" 0 false
    let f3 ← optStrField r "startDate"
    let f4 ← optStrField r "endDate"
    let f5 ← optStrListField r "accountIds"
    let f6 ← optStrListField r "categoryIds"
    let f7 ← optStrField r "search"
    let f8 ← optAmountRangeField r "absAmountRange"
    let f9 ← verbosityField r
    .ok (vObj (f1 ++ f2 ++ f3 ++ f4 ++ f5 ++ f6 ++ f7 ++ f8 ++ f9))
  | .historyRange => do
    let f1 ← optStrField r "startDate"
    let f2 ← optStrField r "endDate"
    .ok (vObj (f1 ++ f2))
  | .updatePayload => do
    let f1 ← reqStrField r "id"
    let f2 ← reqRecordField r "data"
    .ok (vObj (f1 ++ f2))
  | .createPayload => do
    let f ← reqRecordField r "data"
    .ok (vObj f)
  | .accountsGetAll => do
    let f1 ← optBoolField r "includeHidden"
    let f2 ← verbosityField r
    .ok (vObj (f1 ++ f2))
  | .verbosityOnly => do
    let f ← verbosityField r
    .ok (vObj f)
  | .emptyObject => .ok (vObj [])

/-- Argument adapter (src/tools.ts `adaptArguments`): converts a tool's
validated input record into the positional argument list for the SDK
call. `today` is the day count of the current instant, making the
source's `new Date()` explicit. -/
def adaptArguments (toolName : String) (args : JRecord) (today : Nat) : List Value :=
  if toolName ∈ noArgumentMethods then
    []
  else if jsIncludes toolName "getById" || jsIncludes toolName "ById" then
    [jsGet args "id"]
  else if toolName == "transactions_getTransactionDetails" then
    [jsGet args "transactionId"]
  else if jsIncludes toolName "History" || jsIncludes toolName "NetWorth" then
    if jsFalsy (jsGet args "startDate") && jsFalsy (jsGet args "endDate") then []
    else [vObj args]
  else if jsIncludes toolName "Transactions" then
    let t1 :=
      if (match jsGet args "limit" with
          | vNum q => decide ((100 : ℚ) < q)
          | _ => false) then
        jsSet args "limit" (vNum 100)
      else args
    let t2 :=
      if jsFalsy (jsGet t1 "startDate") && jsFalsy (jsGet t1 "endDate") then
        jsSet (jsSet t1 "startDate" (vStr (isoDateOfEpochDays (today - 30))))
          "endDate" (vStr (isoDateOfEpochDays today))
      else t1
    [vObj t2]
  else if jsIncludes toolName "update" then
    [jsGet args "id", jsGet args "data"]
  else if jsIncludes toolName "create" then
    [jsGet args "data"]
  else if args.length == 0 then [] else [vObj args]

end Tools

section Catalog

/-- Shape of an external client as far as the catalog builder's name
synthesis observes it. Runtime reflection (own + prototype property
enumeration with `typeof === "function"` checks) is not shallowly
embeddable; `modules` gives, per present module group, the enumerated
function-valued property names, and `directMethods` the enumerated
top-level function-valued property names, in enumeration order. -/
structure ClientShape where
  modules : List (String × List String)
  directMethods : List String

/-- Tool names generated for the fixed module groups
(src/tools.ts `createToolDefinitions`, first loop): per present module,
the deduplicated method names with `constructor` and private names
filtered out, each prefixed with the module name and an underscore. -/
def toolsForModule (mods : List (String × List String)) (m : String) : List String :=
  match mods.lookup m with
  | none => []
  | some raw =>
    ((jsDedup raw).filter
      (fun n => n ≠ "constructor" && !jsStartsWith n "_")).map
      (fun n => m ++ "_" ++ n)

/-- Recursion over the fixed module list. -/
def moduleToolNamesAux (mods : List (String × List String)) :
    List String → List String
  | [] => []
  | m :: ms => toolsForModule mods m ++ moduleToolNamesAux mods ms

/-- All module-generated tool names, in catalog order. -/
def moduleToolNames (mods : List (String × List String)) : List String :=
  moduleToolNamesAux mods sdkModules

/-- Module-generated names plus the synthesized smart-query tool, which
is appended only when a transactions module is present and no generated
tool already carries the name `transactions_smartQuery`
(src/tools.ts `createToolDefinitions`, `hasSmartQueryTool` guard). -/
def generatedToolNames (c : ClientShape) : List String :=
  moduleToolNames c.modules ++
    (if (c.modules.lookup "transactions").isSome
        && !(moduleToolNames c.modules).contains "transactions_smartQuery" then
      ["transactions_smartQuery"]
    else [])

/-- The complete catalog's tool names: module-generated tools, the
smart-query tool, then the client's direct top-level methods
(deduplicated, with `constructor`, private names, `login` and
`interactiveLogin` filtered out), used as identity keys unprefixed. -/
def createToolNames (c : ClientShape) : List String :=
  generatedToolNames c ++
    ((jsDedup c.directMethods).filter
      (fun n => n ≠ "constructor" && !jsStartsWith n "_"
        && n ≠ "login" && n ≠ "interactiveLogin"))

end Catalog

section Handler

/-- Observable effects of one tool invocation. -/
inductive Event where
  | auth
  | call
deriving DecidableEq

/-- The handler's collaborators: the outcome `ensureAuthenticated` would
produce, the target SDK callable (or `none` when the resolved property is
missing or not a function), and the result formatter passed to
`createToolDefinitions`. -/
structure HandlerEnv where
  authResult : Except String Unit
  targetFn : Option (List Value → Except String Value)
  formatFn : String → Value → JRecord → String

/-- The record carried by a parsed `vObj` value. -/
def recOf : Value → JRecord
  | vObj r => r
  | _ => []

/-- One tool invocation (src/tools.ts `buildToolDefinition`'s handler):
validate `rawArgs ?? {}` against the derived schema, await
authentication, resolve the target callable, adapt arguments, invoke,
and either format the response or re-raise the failure wrapped with the
tool's identity key. The second component is the trace of collaborator
invocations, in order. -/
def runToolHandler (moduleName methodName : String) (env : HandlerEnv)
    (today : Nat) (rawArgs : Value) : Except String String × List Event :=
  let toolName :=
    if moduleName == "client" then methodName else moduleName ++ "_" ++ methodName
  let inputSchema := generateInputSchema moduleName methodName
  match parseSchema inputSchema (jsNullish rawArgs (vObj [])) with
  | .error e => (.error e, [])
  | .ok parsed =>
    match env.authResult with
    | .error e => (.error e, [.auth])
    | .ok _ =>
      match env.targetFn with
      | none => (.error ("Unsupported tool: " ++ toolName), [.auth])
      | some f =>
        let args := recOf parsed
        let callArgs := adaptArguments toolName args today
        match f callArgs with
        | .error m =>
          (.error ("Failed to execute " ++ toolName ++ ": " ++ m), [.auth, .call])
        | .ok response =>
          (.ok (env.formatFn toolName response args), [.auth, .call])

end Handler

section Formatters

/-- String rendering of a JS number. The theorems only render integral
values, which print exactly; shortest-round-trip rendering of non-integral
doubles is not modelled. -/
def numRepr (q : ℚ) : String :=
  if q.den == 1 then toString q.num else toString q

mutual

/-- JS `String(...)` coercion of a value. -/
def jsToString : Value → String
  | vUndef => "undefined"
  | vNull => "null"
  | vBool true => "true"
  | vBool false => "false"
  | vNaN => "NaN"
  | vNum q => numRepr q
  | vStr s => s
  | vArr l => String.intercalate "," (jsToStringList l)
  | vObj _ => "[object Object]"

/-- Element coercion for `Array.prototype.join`: `null` and `undefined`
render as empty strings. -/
def jsToStringList : List Value → List String
  | [] => []
  | vUndef :: vs => "" :: jsToStringList vs
  | vNull :: vs => "" :: jsToStringList vs
  | v :: vs => jsToString v :: jsToStringList vs

end

/-- Comma-grouping of a digit list given least-significant first. -/
def groupRevDigits : List Char → Nat → List Char
  | [], _ => []
  | c :: cs, p =>
    (if p ≠ 0 && p % 3 == 0 then [','] else []) ++ c :: groupRevDigits cs (p + 1)

/-- A natural number with en-US thousands separators. -/
def natToCommaString (n : Nat) : String :=
  ⟨(groupRevDigits (Nat.toDigits 10 n).reverse 0).reverse⟩

/-- Trailing-zero-free fractional digits of `fr < 1000`. -/
def fracDigits (fr : Nat) : String :=
  ⟨([digitChar10 (fr / 100), digitChar10 (fr / 10), digitChar10 fr].reverse.dropWhile
      (fun c => c == '0')).reverse⟩

/-- `Number.prototype.toLocaleString()` modelled for the en-US locale:
thousands separators, at most three fractional digits (rounded), no
forced decimals. The source's output is locale-dependent; no theorem
below depends on this rendering. -/
def numToLocale (q : ℚ) : String :=
  let a := |q|
  let scaled := (jsRound (a * 1000)).toNat
  let ip := scaled / 1000
  let fr := scaled % 1000
  (if q < 0 then "-" else "") ++ natToCommaString ip ++
    (if fr == 0 then "" else "." ++ fracDigits fr)

/-- JSON string quoting; escapes backslashes and quotes (the only escape
characters arising in the embedded data). -/
def jsonQuote (s : String) : String :=
  "\"" ++ ⟨s.data.foldr
    (fun c acc =>
      if c == '"' then '\\' :: '"' :: acc
      else if c == '\\' then '\\' :: '\\' :: acc
      else c :: acc) []⟩ ++ "\""

/-- Indentation of `w × d` spaces. -/
def jsonPad (w d : Nat) : String := ⟨List.replicate (w * d) ' '⟩

mutual

/-- `JSON.stringify(v, null, w)` at nesting depth `d`: `undefined` at the
top renders through a template literal as "undefined", `NaN` as "null". -/
def jsonStringify (w d : Nat) : Value → String
  | vUndef => "undefined"
  | vNull => "null"
  | vBool true => "true"
  | vBool false => "false"
  | vNaN => "null"
  | vNum q => numRepr q
  | vStr s => jsonQuote s
  | vArr [] => "[]"
  | vArr (v :: vs) =>
    "[\n" ++
      String.intercalate ",\n"
        ((jsonStringifyArr w (d + 1) (v :: vs)).map (fun s => jsonPad w (d + 1) ++ s)) ++
      "\n" ++ jsonPad w d ++ "]"
  | vObj kvs =>
    match jsonStringifyObj w (d + 1) kvs with
    | [] => "\x7b\x7d"
    | e :: es =>
      "\x7b\n" ++
        String.intercalate ",\n"
          ((e :: es).map (fun s => jsonPad w (d + 1) ++ s)) ++
        "\n" ++ jsonPad w d ++ "\x7d"

/-- Array elements; `undefined` inside an array serialises as `null`. -/
def jsonStringifyArr (w d : Nat) : List Value → List String
  | [] => []
  | vUndef :: vs => "null" :: jsonStringifyArr w d vs
  | v :: vs => jsonStringify w d v :: jsonStringifyArr w d vs

/-- Object entries; `undefined`-valued entries are omitted. -/
def jsonStringifyObj (w d : Nat) : List (String × Value) → List String
  | [] => []
  | (_, vUndef) :: kvs => jsonStringifyObj w d kvs
  | (k, v) :: kvs =>
    (jsonQuote k ++ ": " ++ jsonStringify w d v) :: jsonStringifyObj w d kvs

end

/-- `new Date(x).toLocaleDateString()`: a locale- and timezone-dependent
rendering of the parsed date, modelled as the raw value's string form (no
theorem below inspects it). -/
def jsDateToLocaleDateString (v : Value) : String := jsToString v

/-- `v === s` for a string literal `s`. -/
def vIsStr (v : Value) (s : String) : Bool :=
  match v with
  | vStr t => t == s
  | _ => false

/-- `originalArgs?.verbosity || "summary"`. -/
def verbosityVal (args : JRecord) : Value := jsOr (jsGet args "verbosity") (vStr "summary")

/-- `acc.currentBalance || 0` as a number. -/
def accCurBal0 (a : Value) : ℚ := toNumber (jsOr (jsGetF a "currentBalance") (vNum 0))

/-- `account.currentBalance || account.displayBalance || 0` as a number. -/
def accAnyBal (a : Value) : ℚ :=
  toNumber (jsOr (jsGetF a "currentBalance") (jsOr (jsGetF a "displayBalance") (vNum 0)))

/-- `account.displayName || account.name` rendered in a template. -/
def accName (a : Value) : String :=
  jsToString (jsOr (jsGetF a "displayName") (jsGetF a "name"))

/-- `account.type?.display || account.subtype?.display || "Unknown"`. -/
def accTypeDisplay (a : Value) : String :=
  jsToString (jsOr (jsGetF (jsGetF a "type") "display")
    (jsOr (jsGetF (jsGetF a "subtype") "display") (vStr "Unknown")))

/-- `account.institution?.name || "Manual"`. -/
def accInstitution (a : Value) : String :=
  jsToString (jsOr (jsGetF (jsGetF a "institution") "name") (vStr "Manual"))

/-- Formatter for account collections
(src/formatters/monarch.ts `formatAccounts`). -/
def formatAccounts (accounts : List Value) (verbosity : Value) : String :=
  if vIsStr verbosity "brief" then
    let totalBalance := accounts.foldl (fun s a => s + accCurBal0 a) 0
    "🏦 " ++ toString accounts.length ++ " accounts, Total Balance: $" ++
      numToLocale totalBalance
  else if vIsStr verbosity "detailed" then
    "🏦 **Accounts** (" ++ toString accounts.length ++ " total)\n\n" ++
      String.intercalate "\n\n"
        (accounts.map (fun a =>
          "• **" ++ accName a ++ "**\n  Type: " ++ accTypeDisplay a ++
            "\n  Balance: $" ++ numToLocale (accAnyBal a) ++
            "\n  Institution: " ++ accInstitution a))
  else
    let totalBalance := accounts.foldl (fun s a => s + accCurBal0 a) 0
    let hiddenCount := (accounts.filter (fun a => jsTruthy (jsGetF a "isHidden"))).length
    "🏦 **Accounts** (" ++ toString accounts.length ++ " total, " ++
      toString hiddenCount ++ " hidden)\n\n" ++
      String.intercalate "\n"
        ((accounts.take 15).map (fun a =>
          "• **" ++ accName a ++ "** (" ++ accTypeDisplay a ++ ") - $" ++
            numToLocale (accAnyBal a))) ++
      (if 15 < accounts.length then
        "\n... and " ++ toString (accounts.length - 15) ++ " more accounts"
      else "") ++
      "\n\n**Total Balance: $" ++ numToLocale totalBalance ++ "**"

/-- `Math.abs(txn.amount || 0)`. -/
def txnAbsAmount (t : Value) : ℚ := jsAbs (toNumber (jsOr (jsGetF t "amount") (vNum 0)))

/-- Stable insertion (after existing ties) for the transaction sort. -/
def insertByAmount (desc : Bool) (x : Value) : List Value → List Value
  | [] => [x]
  | y :: ys =>
    if (if desc then txnAbsAmount y < txnAbsAmount x
        else txnAbsAmount x < txnAbsAmount y) then
      x :: y :: ys
    else y :: insertByAmount desc x ys

/-- The stable `Array.prototype.sort` on a copy, with the comparator from
src/formatters/monarch.ts lines 49-53 (by absolute amount). -/
def sortTxns (desc : Bool) (l : List Value) : List Value :=
  l.foldl (fun acc x => insertByAmount desc x acc) []

/-- `txn.date ? new Date(txn.date).toLocaleDateString() : "Unknown date"`. -/
def txnDate (t : Value) : String :=
  if jsTruthy (jsGetF t "date") then jsDateToLocaleDateString (jsGetF t "date")
  else "Unknown date"

/-- `txn.merchantName || txn.description || "Unknown merchant"`. -/
def txnMerchant (t : Value) : String :=
  jsToString (jsOr (jsGetF t "merchantName")
    (jsOr (jsGetF t "description") (vStr "Unknown merchant")))

/-- `txn.category?.name || "Uncategorized"`. -/
def txnCategory (t : Value) : String :=
  jsToString (jsOr (jsGetF (jsGetF t "category") "name") (vStr "Uncategorized"))

/-- `txn.account?.displayName || "Unknown"`. -/
def txnAccount (t : Value) : String :=
  jsToString (jsOr (jsGetF (jsGetF t "account") "displayName") (vStr "Unknown"))

/-- The signed-amount prefix and grouped absolute amount:
`${amount >= 0 ? "+" : "-"}$${Math.abs(amount).toLocaleString()}`. -/
def txnAmountStr (t : Value) : String :=
  let amount := toNumber (jsOr (jsGetF t "amount") (vNum 0))
  (if 0 ≤ amount then "+" else "-") ++ "$" ++ numToLocale (jsAbs amount)

/-- Formatter for transaction collections
(src/formatters/monarch.ts `formatTransactions`). -/
def formatTransactions (transactions : List Value) (originalArgs : JRecord) : String :=
  let verbosity := verbosityVal originalArgs
  let sortFlag := jsGet originalArgs "_sortByAmount"
  let processed :=
    if jsTruthy sortFlag then sortTxns (vIsStr sortFlag "desc") transactions
    else transactions
  let totalAmount := processed.foldl (fun s t => s + txnAbsAmount t) 0
  if vIsStr verbosity "brief" then
    "💳 " ++ toString processed.length ++ " transactions, Total: $" ++
      numToLocale totalAmount
  else if vIsStr verbosity "detailed" then
    let displayCount := min 25 processed.length
    let items := (processed.take displayCount).enum.map (fun ti =>
      let ranking :=
        if jsTruthy sortFlag then toString (ti.1 + 1) ++ ". " else "• "
      ranking ++ txnDate ti.2 ++ " - **" ++ txnMerchant ti.2 ++ "**" ++
        "\n  Amount: " ++ txnAmountStr ti.2 ++
        "\n  Category: " ++ txnCategory ti.2 ++
        "\n  Account: " ++ txnAccount ti.2 ++
        "\n  ID: " ++ jsToString (jsOr (jsGetF ti.2 "id") (vStr "N/A")) ++
        "\n  " ++
        (if jsTruthy (jsGetF ti.2 "notes") then
          "Notes: " ++ jsToString (jsGetF ti.2 "notes")
        else ""))
    "💳 **Transaction Summary** (" ++ toString processed.length ++
      " transactions)\n\n" ++ String.intercalate "\n\n" items ++
      (if displayCount < processed.length then
        "\n\n... and " ++ toString (processed.length - displayCount) ++
          " more transactions"
      else "") ++
      "\n\n**Total Transaction Volume: $" ++ numToLocale totalAmount ++ "**"
  else
    let displayCount := min 20 processed.length
    let items := (processed.take displayCount).enum.map (fun ti =>
      let ranking :=
        if jsTruthy sortFlag then toString (ti.1 + 1) ++ ". " else "• "
      ranking ++ txnDate ti.2 ++ " - **" ++ txnMerchant ti.2 ++ "**" ++
        "\n  Amount: " ++ txnAmountStr ti.2 ++
        "\n  Category: " ++ txnCategory ti.2 ++
        "\n  Account: " ++ txnAccount ti.2)
    "💳 **Transaction Summary** (" ++ toString processed.length ++
      " transactions)\n\n" ++ String.intercalate "\n\n" items ++
      (if displayCount < processed.length then
        "\n\n... and " ++ toString (processed.length - displayCount) ++
          " more transactions"
      else "") ++
      "\n\n**Total Transaction Volume: $" ++ numToLocale totalAmount ++ "**"

/-- `cat.group ? `(${cat.group.name})` : ""` rendered after the name. -/
def catGroupSuffix (c : Value) : String :=
  if jsTruthy (jsGetF c "group") then
    "(" ++ jsToString (jsGetF (jsGetF c "group") "name") ++ ")"
  else ""

/-- Formatter for category collections
(src/formatters/monarch.ts `formatCategories`). -/
def formatCategories (categories : List Value) (verbosity : Value) : String :=
  if vIsStr verbosity "brief" then
    "🏷️ " ++ toString categories.length ++ " categories"
  else if vIsStr verbosity "detailed" then
    "🏷️ **Categories** (" ++ toString categories.length ++ " total)\n\n" ++
      String.intercalate "\n\n"
        (categories.map (fun c =>
          "• **" ++ jsToString (jsGetF c "name") ++ "** " ++ catGroupSuffix c ++
            "\n  ID: " ++ jsToString (jsOr (jsGetF c "id") (vStr "N/A"))))
  else
    "🏷️ **Categories** (" ++ toString categories.length ++ " total)\n\n" ++
      String.intercalate "\n"
        ((categories.take 15).map (fun c =>
          "• **" ++ jsToString (jsGetF c "name") ++ "** " ++ catGroupSuffix c)) ++
      (if 15 < categories.length then
        "\n... and " ++ toString (categories.length - 15) ++ " more categories"
      else "")

/-- `budget.actual || budget.spent || 0`, the spent amount of one budget
entry (src/formatters/monarch.ts lines 165 and 184). -/
def budgetSpentVal (b : Value) : Value :=
  jsOr (jsGetF b "actual") (jsOr (jsGetF b "spent") (vNum 0))

/-- `budget.budgeted || budget.limit || 0`, the budgeted amount of one
budget entry (src/formatters/monarch.ts lines 166 and 185). -/
def budgetBudgetedVal (b : Value) : Value :=
  jsOr (jsGetF b "budgeted") (jsOr (jsGetF b "limit") (vNum 0))

/-- The rendered percentage-of-budget figure of one budget entry:
`budgeted > 0 ? Math.round((spent / budgeted) * 100) : 0`
(src/formatters/monarch.ts lines 168 and 188, identical in the detailed
and summary branches). -/
def budgetPercentage (b : Value) : Int :=
  let spent := toNumber (budgetSpentVal b)
  let budgeted := toNumber (budgetBudgetedVal b)
  if (0 : ℚ) < budgeted then jsRound (spent / budgeted * 100) else 0

/-- `budget.category?.name || budget.name` rendered in a template. -/
def budgetName (b : Value) : String :=
  jsToString (jsOr (jsGetF (jsGetF b "category") "name") (jsGetF b "name"))

/-- Formatter for budget collections
(src/formatters/monarch.ts `formatBudgets`). -/
def formatBudgets (budgets : List Value) (verbosity : Value) : String :=
  if vIsStr verbosity "brief" then
    let totalBudgeted := budgets.foldl (fun s b => s + toNumber (budgetBudgetedVal b)) 0
    let totalSpent := budgets.foldl (fun s b => s + toNumber (budgetSpentVal b)) 0
    "💰 " ++ toString budgets.length ++ " budget categories, $" ++
      numToLocale totalSpent ++ "/$" ++ numToLocale totalBudgeted ++ " spent"
  else if vIsStr verbosity "detailed" then
    "💰 **Budget Summary** (" ++ toString budgets.length ++ " categories)\n\n" ++
      String.intercalate "\n\n"
        (budgets.map (fun b =>
          let spent := toNumber (budgetSpentVal b)
          let budgeted := toNumber (budgetBudgetedVal b)
          "• **" ++ budgetName b ++ "**" ++
            "\n  Budgeted: $" ++ numToLocale budgeted ++
            "\n  Spent: $" ++ numToLocale spent ++
            " (" ++ toString (budgetPercentage b) ++ "%)" ++
            "\n  Remaining: $" ++ numToLocale (budgeted - spent) ++
            "\n  ID: " ++ jsToString (jsOr (jsGetF b "id") (vStr "N/A"))))
  else
    "💰 **Budget Summary** (" ++ toString budgets.length ++ " categories)\n\n" ++
      String.intercalate "\n\n"
        ((budgets.take 10).map (fun b =>
          let spent := toNumber (budgetSpentVal b)
          let budgeted := toNumber (budgetBudgetedVal b)
          "• **" ++ budgetName b ++ "**" ++
            "\n  Budgeted: $" ++ numToLocale budgeted ++
            "\n  Spent: $" ++ numToLocale spent ++
            " (" ++ toString (budgetPercentage b) ++ "%)" ++
            "\n  Remaining: $" ++ numToLocale (budgeted - spent))) ++
      (if 10 < budgets.length then
        "\n\n... and " ++ toString (budgets.length - 10) ++ " more budget categories"
      else "")

/-- Financial summary lines (src/formatters/monarch.ts `formatSummary`). -/
def formatSummary (data : Value) : String :=
  let l1 := match jsGetF data "totalIncome" with
    | vUndef => []
    | v => ["💰 Total Income: $" ++ numToLocale (toNumber v)]
  let l2 := match jsGetF data "totalExpenses" with
    | vUndef => []
    | v => ["💸 Total Expenses: $" ++ numToLocale (toNumber v)]
  let l3 := match jsGetF data "netIncome" with
    | vUndef => []
    | v => ["📈 Net Income: $" ++ numToLocale (toNumber v)]
  let l4 := match jsGetF data "totalTransactions" with
    | vUndef => []
    | v => ["📊 Total Transactions: " ++ numToLocale (toNumber v)]
  String.intercalate "\n" (l1 ++ l2 ++ l3 ++ l4)

/-- Single-account card (src/formatters/monarch.ts `formatAccount`). -/
def formatAccount (account : Value) : String :=
  "📊 **" ++ accName account ++ "**" ++
    "\nType: " ++ accTypeDisplay account ++
    "\nBalance: $" ++ numToLocale (accAnyBal account) ++
    "\nInstitution: " ++ accInstitution account ++
    "\nUpdated: " ++
    (if jsTruthy (jsGetF account "displayLastUpdatedAt") then
      jsDateToLocaleDateString (jsGetF account "displayLastUpdatedAt")
    else "Unknown")

/-- The fixed allow-list of important object fields
(src/formatters/monarch.ts `getRelevantFields`). -/
def importantKeys : List String :=
  ["id", "name", "displayName", "amount", "balance", "currentBalance",
   "displayBalance", "date", "description", "category", "type", "status",
   "total", "count"]

/-- Extraction of the allow-listed fields present on an object. -/
def getRelevantFields (obj : Value) : JRecord :=
  importantKeys.foldl
    (fun acc k =>
      match jsGetF obj k with
      | vUndef => acc
      | v => acc ++ [(k, v)]) []

/-- Keyed-record rendering (src/formatters/monarch.ts `formatObjectResult`). -/
def formatObjectResult (toolName : String) (data : Value) : String :=
  if !(match jsGetF data "totalIncome" with | vUndef => true | _ => false)
      || !(match jsGetF data "totalExpenses" with | vUndef => true | _ => false) then
    formatSummary data
  else if !(match jsGetF data "currentBalance" with | vUndef => true | _ => false) then
    formatAccount data
  else
    let serialized := String.intercalate "\n"
      ((getRelevantFields data).map (fun kv => kv.1 ++ ": " ++ jsToString kv.2))
    if serialized == "" then toolName ++ " returned an object" else serialized

/-- `toolName.replace(/.*_/, "")`: everything after the last underscore. -/
def afterLastUnderscore (toolName : String) : String :=
  (toolName.splitOn "_").getLastD ""

/-- Sequence rendering (src/formatters/monarch.ts `formatArrayResult`).
Array expando properties (`_smartQueryArgs`, `_originalQuery`) attached by
the smart-query handler cannot exist on a plain list value; their spread
contributes nothing here and the smart-query banner is absent. -/
def formatArrayResult (toolName : String) (data : List Value)
    (originalArgs : JRecord) : String :=
  if data.length == 0 then
    "No " ++ afterLastUnderscore toolName ++ " found."
  else
    let verbosity := verbosityVal originalArgs
    if jsIncludes toolName "accounts" then
      formatAccounts data verbosity
    else if jsIncludes toolName "transactions" || toolName == "transactions_smartQuery" then
      formatTransactions data originalArgs
    else if jsIncludes toolName "categories" then
      formatCategories data verbosity
    else if jsIncludes toolName "budgets" then
      formatBudgets data verbosity
    else
      "Found " ++ toString data.length ++ " items:\n" ++
        String.intercalate "\n"
          ((data.take 10).enum.map (fun vi =>
            toString (vi.1 + 1) ++ ". " ++ jsonStringify 2 0 vi.2)) ++
        (if 10 < data.length then
          "\n... and " ++ toString (data.length - 10) ++ " more items"
        else "")

/-- The fixed set of summary tools whose handlers pre-format their own
result (src/formatters/monarch.ts `formatResult`, `summaryTools`). -/
def summaryTools : List String :=
  ["spending_getByCategoryMonth", "accounts_getBalanceTrends",
   "budget_getVarianceSummary", "insights_getQuickStats"]

/-- Result formatter dispatch (src/formatters/monarch.ts `formatResult`). -/
def formatResult (toolName : String) (result : Value) (originalArgs : JRecord) : String :=
  if jsFalsy result then
    "No data returned for " ++ toolName
  else if toolName ∈ summaryTools then
    jsToString result
  else
    match result with
    | vArr l => formatArrayResult toolName l originalArgs
    | vObj _ => formatObjectResult toolName result
    | _ => jsToString result

end Formatters

section NLQuery

/-- Whitespace for the regex class `\s` (the ASCII cases; the queries
modelled are ASCII). -/
def isWsChar (c : Char) : Bool := c == ' ' || c == '\t' || c == '\n' || c == '\r'

/-- Strips a literal pattern from the front of the input, regex-style. -/
def stripLit : List Char → List Char → Option (List Char)
  | [], cs => some cs
  | _ :: _, [] => none
  | k :: ks, c :: cs => if c == k then stripLit ks cs else none

/-- Ordered regex alternation over literal alternatives: the first
alternative matching a prefix wins (all alternative sets used below have
pairwise-incompatible literals, so no backtracking across alternatives
can occur). -/
def firstAlt : List String → List Char → Option (List Char)
  | [], _ => none
  | k :: ks, cs =>
    match stripLit k.data cs with
    | some rest => some rest
    | none => firstAlt ks cs

/-- Numeric value of a digit run (JS `parseInt` on a `\d+` capture,
which is never NaN). -/
def digitsVal (ds : List Char) : Nat :=
  ds.foldl (fun acc c => acc * 10 + (c.toNat - 48)) 0

/-- One anchored attempt of the count regex
`(?:last|recent|top|first)\s+(\d+)|(\d+)\s+(?:last|recent|top|largest|biggest|smallest)`
at the given position; alternative literals start with distinct
characters, so the two top-level alternatives are mutually exclusive at
any one position. -/
def matchCountAt (cs : List Char) : Option Nat :=
  match firstAlt ["last", "recent", "top", "first"] cs with
  | some rest =>
    let ws := rest.takeWhile isWsChar
    let afterWs := rest.dropWhile isWsChar
    let ds := afterWs.takeWhile Char.isDigit
    if ws.length ≠ 0 && ds.length ≠ 0 then some (digitsVal ds) else none
  | none =>
    let ds := cs.takeWhile Char.isDigit
    if ds.length ≠ 0 then
      let rest := cs.dropWhile Char.isDigit
      let ws := rest.takeWhile isWsChar
      let afterWs := rest.dropWhile isWsChar
      if ws.length ≠ 0 &&
          (firstAlt ["last", "recent", "top", "largest", "biggest", "smallest"]
            afterWs).isSome then
        some (digitsVal ds)
      else none
    else none

/-- Leftmost match of the count regex: `String.prototype.match` without
the global flag returns the first match. -/
def scanCount : List Char → Option Nat
  | [] => none
  | c :: cs =>
    match matchCountAt (c :: cs) with
    | some n => some n
    | none => scanCount cs

/-- Greedy `(,\d{3})*` scanning: returns the consumed group characters
and the remaining input. -/
def scanGroups : List Char → List Char × List Char
  | c1 :: c2 :: c3 :: c4 :: rest =>
    if c1 == ',' && c2.isDigit && c3.isDigit && c4.isDigit then
      let gr := scanGroups rest
      (c1 :: c2 :: c3 :: c4 :: gr.1, gr.2)
    else ([], c1 :: c2 :: c3 :: c4 :: rest)
  | l => ([], l)

/-- The `\s*\$?(\d+(?:,\d{3})*(?:\.\d{2})?)` part of the amount regex:
returns the captured number characters. -/
def matchAmountNumber (cs : List Char) : Option (List Char) :=
  let afterWs := cs.dropWhile isWsChar
  let afterDollar :=
    match afterWs with
    | '$' :: r => r
    | r => r
  let ds := afterDollar.takeWhile Char.isDigit
  if ds.length ≠ 0 then
    let rest1 := afterDollar.dropWhile Char.isDigit
    let gr := scanGroups rest1
    let frac :=
      match gr.2 with
      | '.' :: a :: b :: _ => if a.isDigit && b.isDigit then ['.', a, b] else []
      | _ => []
    some (ds ++ gr.1 ++ frac)
  else none

/-- One anchored attempt of the amount regex
`(?:over|above|more than)\s*\$?(…)|(?:under|below|less than)\s*\$?(…)`;
the captured group is returned (group 1 or group 2, whichever matched —
the handler reads `amountMatch[1] || amountMatch[2]`). -/
def matchAmountAt (cs : List Char) : Option (List Char) :=
  match firstAlt ["over", "above", "more than"] cs with
  | some rest => matchAmountNumber rest
  | none =>
    match firstAlt ["under", "below", "less than"] cs with
    | some rest => matchAmountNumber rest
    | none => none

/-- Leftmost match of the amount regex. -/
def scanAmount : List Char → Option (List Char)
  | [] => none
  | c :: cs =>
    match matchAmountAt (c :: cs) with
    | some cap => some cap
    | none => scanAmount cs

/-- `parseFloat(capture.replace(/,/g, ""))` on an amount capture (digits,
comma groups, optional two-digit fraction); exact here, and every such
capture with at most 15 significant digits is exact in JS up to the
double rounding of the fraction, which no theorem below depends on. -/
def parseDecCapture (cs : List Char) : ℚ :=
  let noCommas := cs.filter (fun c => c ≠ ',')
  let ip := noCommas.takeWhile Char.isDigit
  let rest := noCommas.dropWhile Char.isDigit
  match rest with
  | '.' :: fs => (digitsVal ip : ℚ) + (digitsVal fs : ℚ) / ((10 : ℚ) ^ fs.length)
  | _ => (digitsVal ip : ℚ)

/-- One anchored attempt of `gas\s+station`. -/
def gasStationAt (cs : List Char) : Bool :=
  match stripLit "gas".data cs with
  | some rest =>
    let afterWs := rest.dropWhile isWsChar
    (rest.takeWhile isWsChar).length ≠ 0 &&
      (stripLit "station".data afterWs).isSome
  | none => false

/-- Occurrence test for `gas\s+station`. -/
def gasStationScan : List Char → Bool
  | [] => false
  | c :: cs => gasStationAt (c :: cs) || gasStationScan cs

/-- The ordered merchant pattern list (src/index.ts `merchantPatterns`):
the first matching pattern wins and the scan stops. -/
def merchantSearch (lower : String) : Option String :=
  if jsIncludes lower "amazon" || jsIncludes lower "amzn" then some "amazon"
  else if jsIncludes lower "walmart" || jsIncludes lower "wal-mart" then some "walmart"
  else if jsIncludes lower "target" then some "target"
  else if jsIncludes lower "costco" then some "costco"
  else if jsIncludes lower "starbucks" then some "starbucks"
  else if jsIncludes lower "mcdonalds" || jsIncludes lower "mcdonald\x27s" then
    some "mcdonalds"
  else if jsIncludes lower "netflix" then some "netflix"
  else if jsIncludes lower "spotify" then some "spotify"
  else if jsIncludes lower "uber" || jsIncludes lower "lyft" then some "uber"
  else if jsIncludes lower "apple" || jsIncludes lower "app store" then some "apple"
  else if jsIncludes lower "google" || jsIncludes lower "youtube" then some "google"
  else if gasStationScan lower.data || jsIncludes lower "gasoline"
      || jsIncludes lower "fuel" then some "gas"
  else if jsIncludes lower "restaurant" || jsIncludes lower "dining"
      || jsIncludes lower "food" then some "restaurant"
  else if jsIncludes lower "grocery" || jsIncludes lower "groceries" then some "grocery"
  else if jsIncludes lower "subscription" || jsIncludes lower "subscriptions" then
    some "subscription"
  else none

/-- Sort directive extracted into `_sortByAmount`. -/
inductive SortDir where
  | desc
  | asc
deriving DecidableEq

/-- The partial filter record produced by the query parser; unset fields
model keys never assigned on `enhancedArgs`. The source key
`_sortByAmount` is the field `sortByAmount`. -/
structure NLArgs where
  limit : Option Nat
  search : Option String
  startDate : Option String
  endDate : Option String
  absAmountRange : Option (Option ℚ × Option ℚ)
  sortByAmount : Option SortDir
deriving DecidableEq

/-- First day of the month preceding the month of `c`
(`new Date(y, m - 1, 1)` with JS month normalisation). -/
def prevMonthStart (c : CivilDate) : CivilDate :=
  if c.m == 1 then ⟨c.y - 1, 12, 1⟩ else ⟨c.y, c.m - 1, 1⟩

/-- The relative date windows for the literal phrases `this month`,
`last month` and `this week` (src/index.ts lines 99-117), evaluated in
UTC from the current day count; `getDay()` of epoch day `n` is
`(n + 4) % 7` since 1970-01-01 was a Thursday, and `new Date(y, m, 0)`
is the day before the first of month `m`. -/
def windowArgs (today : Nat) (lower : String) : Option (String × String) :=
  if jsIncludes lower "this month" then
    let c := civilFromDays today
    some (isoOfCivil ⟨c.y, c.m, 1⟩, isoDateOfEpochDays today)
  else if jsIncludes lower "last month" then
    let c := civilFromDays today
    some (isoOfCivil (prevMonthStart c),
      isoDateOfEpochDays (daysFromCivil c.y c.m 1 - 1))
  else if jsIncludes lower "this week" then
    some (isoDateOfEpochDays (today - (today + 4) % 7), isoDateOfEpochDays today)
  else none

/-- The natural-language query parser
(src/index.ts `parseNaturalLanguageQuery`): best-effort extraction of a
count, a merchant keyword, a relative date window, an amount threshold
and a sort directive from the lower-cased query. A count is accepted only
when it is at most 100; the amount-threshold direction is decided by
substring tests on the whole query. -/
def parseNaturalLanguageQuery (today : Nat) (query : String) : NLArgs :=
  let lower := jsToLower query
  let cs := lower.data
  let limit :=
    match scanCount cs with
    | some n => if n ≤ 100 then some n else none
    | none => none
  let search := merchantSearch lower
  let window := windowArgs today lower
  let amount :=
    match scanAmount cs with
    | some cap =>
      let a := parseDecCapture cap
      if jsIncludes lower "over" || jsIncludes lower "above"
          || jsIncludes lower "more than" then
        some ((some a, none) : Option ℚ × Option ℚ)
      else
        some ((none, some a) : Option ℚ × Option ℚ)
    | none => none
  let sort :=
    if jsIncludes lower "largest" || jsIncludes lower "biggest"
        || jsIncludes lower "highest" then
      some SortDir.desc
    else if jsIncludes lower "smallest" || jsIncludes lower "lowest" then
      some SortDir.asc
    else none
  { limit := limit, search := search,
    startDate := window.map Prod.fst, endDate := window.map Prod.snd,
    absAmountRange := amount, sortByAmount := sort }

end NLQuery

section Lemmas

lemma jsIncludes_trans {s a b : String} (h1 : jsIncludes s a = true)
    (h2 : jsIncludes a b = true) : jsIncludes s b = true := by
  simp only [jsIncludes, decide_eq_true_eq] at h1 h2 ⊢
  exact h2.trans h1

lemma jsIncludes_append_right {a b sub : String} (h : jsIncludes b sub = true) :
    jsIncludes (a ++ b) sub = true := by
  simp only [jsIncludes, decide_eq_true_eq] at h ⊢
  refine h.trans ?_
  exact (List.suffix_append a.data b.data).isInfix.trans (by simp [String.data_append])

lemma jsIncludes_middle (a b c : String) : jsIncludes (a ++ b ++ c) b = true := by
  simp only [jsIncludes, decide_eq_true_eq]
  exact ⟨a.data, c.data, by simp [String.data_append]⟩

lemma noArg_not_ById {t : String} (hm : t ∈ noArgumentMethods) :
    jsIncludes t "ById" = false := by
  fin_cases hm <;> decide

lemma not_mem_noArg_of_ById {t : String} (h : jsIncludes t "ById" = true) :
    t ∉ noArgumentMethods := by
  intro hm
  rw [noArg_not_ById hm] at h
  exact absurd h (by simp)

lemma digitChar10_isDigit (n : Nat) : (digitChar10 n).isDigit = true := by
  have h : n % 10 < 10 := Nat.mod_lt _ (by decide)
  have hall : ∀ m < 10, (Nat.digitChar m).isDigit = true := by decide
  exact hall _ h

lemma isYYYYMMDD_isoOfCivil (c : CivilDate) : isYYYYMMDD (isoOfCivil c) = true := by
  simp [isYYYYMMDD, isoOfCivil, digitChar10_isDigit]

lemma jsGet_mapReplace (r : JRecord) (k : String) (v : Value)
    (h : r.any (fun kv => kv.1 == k) = true) :
    jsGet (r.map (fun kv => if kv.1 == k then (kv.1, v) else kv)) k = v := by
  induction r with
  | nil => simp at h
  | cons hd tl ih =>
    by_cases hk : hd.1 == k
    · have hk' : hd.1 = k := by simpa using hk
      simp [jsGet, List.find?, hk, hk']
    · have hk' : (hd.1 == k) = false := by simpa using hk
      have htl : tl.any (fun kv => kv.1 == k) = true := by
        simpa [hk'] using h
      simpa [jsGet, List.find?, hk'] using ih htl

lemma jsGet_append_single (r : JRecord) (k : String) (v : Value)
    (h : r.any (fun kv => kv.1 == k) = false) :
    jsGet (r ++ [(k, v)]) k = v := by
  induction r with
  | nil => simp [jsGet, List.find?]
  | cons hd tl ih =>
    rw [List.any_cons] at h
    rcases Bool.or_eq_false_iff.mp h with ⟨hk', htl⟩
    simpa [jsGet, List.find?, hk'] using ih htl

lemma jsGet_jsSet_same (r : JRecord) (k : String) (v : Value) :
    jsGet (jsSet r k v) k = v := by
  unfold jsSet
  by_cases h : r.any (fun kv => kv.1 == k) = true
  · simpa [h] using jsGet_mapReplace r k v h
  · have h' : r.any (fun kv => kv.1 == k) = false := Bool.eq_false_iff.mpr h
    simpa [h'] using jsGet_append_single r k v h'

lemma jsGet_mapReplace_other (r : JRecord) (k k2 : String) (v : Value)
    (h : (k2 == k) = false) :
    jsGet (r.map (fun kv => if kv.1 == k then (kv.1, v) else kv)) k2 = jsGet r k2 := by
  induction r with
  | nil => simp [jsGet]
  | cons hd tl ih =>
    by_cases hk : hd.1 == k
    · have hk' : hd.1 = k := by simpa using hk
      have hne : (hd.1 == k2) = false := by
        subst hk'
        simpa [BEq.comm] using h
      simp [jsGet, List.find?, hk, hne] at ih ⊢
      exact ih
    · have hk' : (hd.1 == k) = false := by simpa using hk
      by_cases h2 : hd.1 == k2
      · simp [jsGet, List.find?, hk', h2]
      · have h2' : (hd.1 == k2) = false := by simpa using h2
        simp [jsGet, List.find?, hk', h2'] at ih ⊢
        exact ih

lemma jsGet_append_single_other (r : JRecord) (k k2 : String) (v : Value)
    (h : (k2 == k) = false) :
    jsGet (r ++ [(k, v)]) k2 = jsGet r k2 := by
  induction r with
  | nil =>
    have : (k == k2) = false := by simpa [BEq.comm] using h
    simp [jsGet, List.find?, this]
  | cons hd tl ih =>
    by_cases h2 : hd.1 == k2
    · simp [jsGet, List.find?, h2]
    · have h2' : (hd.1 == k2) = false := by simpa using h2
      simp [jsGet, List.find?, h2'] at ih ⊢
      exact ih

lemma jsGet_jsSet_other (r : JRecord) (k k2 : String) (v : Value)
    (h : (k2 == k) = false) :
    jsGet (jsSet r k v) k2 = jsGet r k2 := by
  unfold jsSet
  by_cases hany : r.any (fun kv => kv.1 == k) = true
  · simpa [hany] using jsGet_mapReplace_other r k k2 v h
  · have h' : r.any (fun kv => kv.1 == k) = false := Bool.eq_false_iff.mpr hany
    simpa [h'] using jsGet_append_single_other r k k2 v h

end Lemmas

/-- Claim C2: the schema derived for group `transactions`, operation
`getTransactions` accepts its own declared defaults unchanged — parsing
the empty record succeeds and yields exactly
`limit = 50, offset = 0, verbosity = "summary"` and nothing else. -/
theorem claim_C2_roundtrip :
    generateInputSchema "transactions" "getTransactions" = SchemaKind.txFilter ∧
    parseSchema (generateInputSchema "transactions" "getTransactions") (vObj []) =
      .ok (vObj [("limit", vNum 50), ("offset", vNum 0),
        ("verbosity", vStr "summary")]) :=
  ⟨rfl, rfl⟩

/-- Claim C10: every falsy raw result (`undefined`, `null`, `0`, `false`,
`NaN`, the empty string) makes the result formatter return the sentinel
`No data returned for` followed by the tool name, ahead of every other
dispatch branch including the summary-tool bypass and the string case. -/
theorem claim_C10_falsy_sentinel (toolName : String) (v : Value) (args : JRecord)
    (h : jsFalsy v = true) :
    formatResult toolName v args = "No data returned for " ++ toolName := by
  simp [formatResult, h]

/-- Witness for C10 at the falsy number 0 and a summary tool name. -/
theorem claim_C10_witness :
    formatResult "spending_getByCategoryMonth" (vNum 0) [] =
      "No data returned for spending_getByCategoryMonth" :=
  claim_C10_falsy_sentinel "spending_getByCategoryMonth" (vNum 0) [] rfl

/-- Counterexample to claim C5 as stated: the empty string is a string
raw result, yet the formatter returns the sentinel instead of returning
it verbatim, because the falsy check precedes the string branch. -/
theorem claim_C5_counterexample :
    formatResult "accounts_getAll" (vStr "") [] =
      "No data returned for accounts_getAll" ∧
    "No data returned for accounts_getAll" ≠ "" :=
  ⟨rfl, by decide⟩

/-- Claim C5 (amended): every non-empty string raw result is returned
verbatim, and an absent (`undefined`) or `null` raw result produces the
`no data` sentinel naming the tool. -/
theorem claim_C5_amended :
    (∀ (toolName s : String) (args : JRecord), s ≠ "" →
      formatResult toolName (vStr s) args = s) ∧
    (∀ (toolName : String) (args : JRecord),
      formatResult toolName vNull args = "No data returned for " ++ toolName ∧
      formatResult toolName vUndef args = "No data returned for " ++ toolName) := by
  constructor
  · intro toolName s args hs
    have hb : (s == "") = false := by
      simpa using hs
    by_cases hm : toolName ∈ summaryTools
    · simp [formatResult, jsFalsy, hb, hm, jsToString]
    · simp [formatResult, jsFalsy, hb, hm, jsToString]
  · intro toolName args
    exact ⟨by simp [formatResult, jsFalsy], by simp [formatResult, jsFalsy]⟩

/-- Witness for C5 (amended) at a non-empty string result. -/
theorem claim_C5_witness :
    formatResult "accounts_getAll" (vStr "hello") [] = "hello" :=
  claim_C5_amended.1 "accounts_getAll" "hello" [] (by decide)

/-- Counterexample to claim C8 as stated: for a budget entry with a
negative budgeted amount (-100) and spent 50, the rendered figure is 0,
not `round(spent/budgeted*100) = -50`, because the source guards with
`budgeted > 0` rather than `budgeted != 0`. -/
theorem claim_C8_counterexample :
    toNumber (budgetBudgetedVal (vObj [("actual", vNum 50), ("budgeted", vNum (-100))]))
      = -100 ∧
    budgetPercentage (vObj [("actual", vNum 50), ("budgeted", vNum (-100))]) = 0 ∧
    jsRound ((50 : ℚ) / (-100) * 100) = -50 ∧
    (0 : Int) ≠ -50 := by
  refine ⟨rfl, rfl, ?_, by decide⟩
  norm_num [jsRound]

/-- Claim C8 (amended): the percentage-of-budget figure of a rendered
budget entry is the integer percent `round(spent/budgeted*100)` whenever
the budgeted amount is positive, and 0 whenever it is zero or negative
(in particular when it is 0, so division by zero never occurs). -/
theorem claim_C8_amended (b : Value) (s t : ℚ)
    (hs : toNumber (budgetSpentVal b) = s)
    (ht : toNumber (budgetBudgetedVal b) = t) :
    ((0 : ℚ) < t → budgetPercentage b = jsRound (s / t * 100)) ∧
    (t ≤ 0 → budgetPercentage b = 0) := by
  subst hs
  subst ht
  constructor
  · intro hpos
    simp [budgetPercentage, hpos]
  · intro hnp
    simp [budgetPercentage, not_lt.mpr hnp]

/-- Witness for C8 (amended): spent 50 of budgeted 200 renders as 25%. -/
theorem claim_C8_witness :
    budgetPercentage (vObj [("actual", vNum 50), ("budgeted", vNum 200)]) = 25 := by
  have h := (claim_C8_amended (vObj [("actual", vNum 50), ("budgeted", vNum 200)])
    50 200 rfl rfl).1 (by norm_num)
  rw [h]
  norm_num [jsRound]

lemma nlargs_ext (a b : NLArgs) (h1 : a.limit = b.limit) (h2 : a.search = b.search)
    (h3 : a.startDate = b.startDate) (h4 : a.endDate = b.endDate)
    (h5 : a.absAmountRange = b.absAmountRange)
    (h6 : a.sortByAmount = b.sortByAmount) : a = b := by
  cases a; cases b; simp_all

/-- Claim C9: the query parser maps the free text
`last 3 amazon purchases over $10` to exactly
`limit = 3, search = amazon, absAmountRange = [10, unset]` with all other
fields unset; and over all queries an extracted count is accepted as the
limit only when it is at most 100 — a larger count leaves the limit unset
rather than clamping it. -/
theorem claim_C9_nl_parse :
    (∀ today : Nat,
      parseNaturalLanguageQuery today "last 3 amazon purchases over $10" =
        { limit := some 3, search := some "amazon", startDate := none,
          endDate := none, absAmountRange := some (some 10, none),
          sortByAmount := none }) ∧
    (∀ (today : Nat) (q : String) (k : Nat),
      scanCount (jsToLower q).data = some k → 100 < k →
      (parseNaturalLanguageQuery today q).limit = none) ∧
    (∀ (today : Nat) (q : String) (k : Nat),
      (parseNaturalLanguageQuery today q).limit = some k → k ≤ 100) := by
  refine ⟨?_, ?_, ?_⟩
  · intro today
    refine nlargs_ext _ _ ?_ ?_ ?_ ?_ ?_ ?_ <;> rfl
  · intro today q k hscan hk
    simp [parseNaturalLanguageQuery, hscan, Nat.not_le.mpr hk]
  · intro today q k hlim
    simp only [parseNaturalLanguageQuery] at hlim
    rcases hscan : scanCount (jsToLower q).data with _ | n
    · simp [hscan] at hlim
    · rw [hscan] at hlim
      by_cases hn : n ≤ 100
      · simp only [if_pos hn, Option.some.injEq] at hlim
        exact hlim ▸ hn
      · simp [if_neg hn] at hlim

/-- Witness for C9: a count of 500 is rejected without clamping, and the
concrete query from the claim yields limit 3 (which is at most 100). -/
theorem claim_C9_witness :
    (parseNaturalLanguageQuery 0 "top 500 things").limit = none ∧ (3 : Nat) ≤ 100 :=
  ⟨claim_C9_nl_parse.2.1 0 "top 500 things" 500 (by rfl) (by norm_num),
   claim_C9_nl_parse.2.2 0 "last 3 amazon purchases over $10" 3 (by rfl)⟩

lemma jsIncludes_right (a b : String) : jsIncludes (a ++ b) b = true := by
  simp only [jsIncludes, decide_eq_true_eq]
  exact ⟨a.data, [], by simp [String.data_append]⟩

/-- Claim C6: whenever the raw input fails the derived schema, the
handler fails with that validation error before anything else happens —
the collaborator trace is empty, so neither `ensureAuthenticated` nor the
target callable was invoked. -/
theorem claim_C6_validation_first (moduleName methodName : String) (env : HandlerEnv)
    (today : Nat) (rawArgs : Value) (e : String)
    (h : parseSchema (generateInputSchema moduleName methodName)
      (jsNullish rawArgs (vObj [])) = .error e) :
    runToolHandler moduleName methodName env today rawArgs = (.error e, []) := by
  simp [runToolHandler, h]

/-- A concrete handler environment whose collaborators all succeed. -/
def witnessEnvOk : HandlerEnv :=
  ⟨.ok (), some (fun _ => .ok vNull), fun toolName _ _ => toolName⟩

/-- Witness for C6: a numeric `id` fails the ById schema and the handler
returns the validation error with an empty collaborator trace. -/
theorem claim_C6_witness :
    runToolHandler "accounts" "getById" witnessEnvOk 0 (vObj [("id", vNum 1)]) =
      (.error "Required string field missing: id", []) :=
  claim_C6_validation_first "accounts" "getById" witnessEnvOk 0
    (vObj [("id", vNum 1)]) "Required string field missing: id" rfl

/-- Claim C7: when the external operation fails with message `m`, the
handler re-raises a single failure whose message contains both the tool
identity key and `m`. -/
theorem claim_C7_error_wrapping (moduleName methodName toolName : String)
    (env : HandlerEnv) (today : Nat) (rawArgs parsed : Value)
    (f : List Value → Except String Value) (m : String)
    (htn : toolName =
      if moduleName == "client" then methodName
      else moduleName ++ "_" ++ methodName)
    (hp : parseSchema (generateInputSchema moduleName methodName)
      (jsNullish rawArgs (vObj [])) = .ok parsed)
    (ha : env.authResult = .ok ())
    (hf : env.targetFn = some f)
    (hc : f (adaptArguments toolName (recOf parsed) today) = .error m) :
    runToolHandler moduleName methodName env today rawArgs =
      (.error ("Failed to execute " ++ toolName ++ ": " ++ m),
        [Event.auth, Event.call]) ∧
    jsIncludes ("Failed to execute " ++ toolName ++ ": " ++ m) toolName = true ∧
    jsIncludes ("Failed to execute " ++ toolName ++ ": " ++ m) m = true := by
  subst htn
  simp only [beq_iff_eq] at hc
  refine ⟨?_, ?_, ?_⟩
  · simp [runToolHandler, hp, ha, hf, hc]
  · rw [String.append_assoc]
    exact jsIncludes_middle _ _ _
  · exact jsIncludes_right _ _

/-- A concrete handler environment whose target call throws `boom`. -/
def witnessEnvBoom : HandlerEnv :=
  ⟨.ok (), some (fun _ => .error "boom"), fun toolName _ _ => toolName⟩

/-- Witness for C7: a thrown `boom` during `accounts_getAll` surfaces as
a failure whose message contains both `accounts_getAll` and `boom`. -/
theorem claim_C7_witness :
    runToolHandler "accounts" "getAll" witnessEnvBoom 0 (vObj []) =
      (.error "Failed to execute accounts_getAll: boom",
        [Event.auth, Event.call]) ∧
    jsIncludes "Failed to execute accounts_getAll: boom" "accounts_getAll" = true ∧
    jsIncludes "Failed to execute accounts_getAll: boom" "boom" = true :=
  claim_C7_error_wrapping "accounts" "getAll" "accounts_getAll" witnessEnvBoom 0
    (vObj []) (vObj [("verbosity", vStr "summary")]) (fun _ => .error "boom")
    "boom" rfl rfl rfl rfl rfl

/-- Counterexample to claim C1 as stated: the identity key
`transactions_getTransactionsHistory` contains `Transactions`, is not in
the zero-argument set, and its derived schema is the transaction-filter
schema — yet on the defaulted input the adapter returns the empty
positional list (the History rule precedes the Transactions rule), not a
one-element list with a filled 30-day window. -/
theorem claim_C1_counterexample :
    jsIncludes "transactions_getTransactionsHistory" "Transactions" = true ∧
    "transactions_getTransactionsHistory" ∉ noArgumentMethods ∧
    generateInputSchema "transactions" "getTransactionsHistory" =
      SchemaKind.txFilter ∧
    parseSchema SchemaKind.txFilter (vObj []) =
      .ok (vObj [("limit", vNum 50), ("offset", vNum 0),
        ("verbosity", vStr "summary")]) ∧
    adaptArguments "transactions_getTransactionsHistory"
      [("limit", vNum 50), ("offset", vNum 0), ("verbosity", vStr "summary")]
      19754 = [] :=
  ⟨by decide, by decide, by decide, rfl, rfl⟩

/-- Claim C1 (amended): for every validated transaction-filter input
whose identity key contains `Transactions`, is not in the zero-argument
set, and matches no earlier adapter rule (no `ById`, not the
transaction-detail key, no `History`/`NetWorth`), the adapter returns a
one-element positional list holding a copy of the input in which: a
`limit` above 100 is clamped to exactly 100 and one not above 100 (such
as the present 50) is left unchanged, unconditionally; every field other
than `limit`, `startDate` and `endDate` is copied; when neither
`startDate` nor `endDate` is present both are set to a trailing 30-day
window ending at the current date, each formatted `YYYY-MM-DD`, while
present dates are copied unchanged; the schema itself accepts `limit`
500 unclamped. -/
theorem claim_C1_adapter (toolName : String) (r : JRecord) (today : Nat)
    (hT : jsIncludes toolName "Transactions" = true)
    (hZ : toolName ∉ noArgumentMethods)
    (hById : jsIncludes toolName "ById" = false)
    (hDet : toolName ≠ "transactions_getTransactionDetails")
    (hHist : jsIncludes toolName "History" = false)
    (hNW : jsIncludes toolName "NetWorth" = false) :
    ∃ out : JRecord,
      adaptArguments toolName r today = [vObj out] ∧
      (∀ q : ℚ, jsGet r "limit" = vNum q → 100 < q →
        jsGet out "limit" = vNum 100) ∧
      (∀ q : ℚ, jsGet r "limit" = vNum q → ¬ 100 < q →
        jsGet out "limit" = vNum q) ∧
      (∀ k : String, k ≠ "limit" → k ≠ "startDate" → k ≠ "endDate" →
        jsGet out k = jsGet r k) ∧
      (jsFalsy (jsGet r "startDate") = true → jsFalsy (jsGet r "endDate") = true →
        jsGet out "startDate" = vStr (isoDateOfEpochDays (today - 30)) ∧
        jsGet out "endDate" = vStr (isoDateOfEpochDays today) ∧
        isYYYYMMDD (isoDateOfEpochDays (today - 30)) = true ∧
        isYYYYMMDD (isoDateOfEpochDays today) = true) ∧
      (jsFalsy (jsGet r "startDate") = false ∨ jsFalsy (jsGet r "endDate") = false →
        jsGet out "startDate" = jsGet r "startDate" ∧
        jsGet out "endDate" = jsGet r "endDate") ∧
      parseSchema SchemaKind.txFilter (vObj [("limit", vNum 500)]) =
        .ok (vObj [("limit", vNum 500), ("offset", vNum 0),
          ("verbosity", vStr "summary")]) := by
  have hgById : jsIncludes toolName "getById" = false := by
    cases hgb : jsIncludes toolName "getById" with
    | false => rfl
    | true =>
      exact absurd (jsIncludes_trans hgb
        (show jsIncludes "getById" "ById" = true by decide)) (by simp [hById])
  have hDetb : (toolName == "transactions_getTransactionDetails") = false := by
    simpa using hDet
  simp only [adaptArguments, hgById, hById, hDetb, hHist, hNW, hT, Bool.or_self,
    Bool.or_false, Bool.false_or, if_neg hZ, if_false, if_true,
    Bool.false_eq_true, ite_false, ite_true]
  set t1 := (if (match jsGet r "limit" with
      | vNum q => decide ((100 : ℚ) < q)
      | _ => false) = true then jsSet r "limit" (vNum 100) else r) with ht1
  have hD1 : jsGet t1 "startDate" = jsGet r "startDate" := by
    rw [ht1]
    split
    · exact jsGet_jsSet_other r "limit" "startDate" (vNum 100) (by decide)
    · rfl
  have hD2 : jsGet t1 "endDate" = jsGet r "endDate" := by
    rw [ht1]
    split
    · exact jsGet_jsSet_other r "limit" "endDate" (vNum 100) (by decide)
    · rfl
  have hLim : ∀ q : ℚ, jsGet r "limit" = vNum q →
      jsGet t1 "limit" = (if (100 : ℚ) < q then vNum 100 else vNum q) := by
    intro q hq
    rw [ht1, hq]
    show jsGet (if decide ((100 : ℚ) < q) = true then jsSet r "limit" (vNum 100) else r)
        "limit" = _
    by_cases h100 : (100 : ℚ) < q
    · rw [decide_eq_true h100, if_pos rfl, if_pos h100]
      exact jsGet_jsSet_same r "limit" (vNum 100)
    · rw [decide_eq_false h100, if_neg (by simp), if_neg h100]
      exact hq
  have hOther : ∀ k : String, k ≠ "limit" → jsGet t1 k = jsGet r k := by
    intro k hk
    rw [ht1]
    split
    · exact jsGet_jsSet_other r "limit" k (vNum 100) (by simpa using hk)
    · rfl
  rw [hD1, hD2]
  by_cases hc : (jsFalsy (jsGet r "startDate") && jsFalsy (jsGet r "endDate")) = true
  · rw [if_pos hc]
    refine ⟨_, rfl, ?_, ?_, ?_, ?_, ?_, rfl⟩
    · intro q hq h100
      rw [jsGet_jsSet_other _ "endDate" "limit" _ (by decide),
        jsGet_jsSet_other _ "startDate" "limit" _ (by decide), hLim q hq,
        if_pos h100]
    · intro q hq h100
      rw [jsGet_jsSet_other _ "endDate" "limit" _ (by decide),
        jsGet_jsSet_other _ "startDate" "limit" _ (by decide), hLim q hq,
        if_neg h100]
    · intro k h1 h2 h3
      rw [jsGet_jsSet_other _ "endDate" k _ (by simpa using h3),
        jsGet_jsSet_other _ "startDate" k _ (by simpa using h2)]
      exact hOther k h1
    · intro _ _
      refine ⟨?_, jsGet_jsSet_same _ "endDate" _,
        isYYYYMMDD_isoOfCivil _, isYYYYMMDD_isoOfCivil _⟩
      rw [jsGet_jsSet_other _ "endDate" "startDate" _ (by decide)]
      exact jsGet_jsSet_same _ "startDate" _
    · intro hor
      simp only [Bool.and_eq_true] at hc
      rcases hc with ⟨hc1, hc2⟩
      cases hor with
      | inl h1 => rw [hc1] at h1; exact absurd h1 (by simp)
      | inr h2 => rw [hc2] at h2; exact absurd h2 (by simp)
  · rw [if_neg hc]
    refine ⟨_, rfl, ?_, ?_, ?_, ?_, ?_, rfl⟩
    · intro q hq h100
      rw [hLim q hq, if_pos h100]
    · intro q hq h100
      rw [hLim q hq, if_neg h100]
    · intro k h1 _ _
      exact hOther k h1
    · intro hfs hfe
      refine absurd ?_ hc
      rw [hfs, hfe]
      rfl
    · intro _
      exact ⟨hD1, hD2⟩

/-- Witness for C1 (amended): the validated input with `limit` 500 and
no dates on `transactions_getTransactions`, adapted on 2024-02-01
(epoch day 19754), where the filled window is 2024-01-02 to 2024-02-01. -/
theorem claim_C1_witness :
    ∃ out : JRecord,
      adaptArguments "transactions_getTransactions"
        [("limit", vNum 500), ("offset", vNum 0), ("verbosity", vStr "summary")]
        19754 = [vObj out] ∧
      (∀ q : ℚ, jsGet [("limit", vNum 500), ("offset", vNum 0),
          ("verbosity", vStr "summary")] "limit" = vNum q → 100 < q →
        jsGet out "limit" = vNum 100) ∧
      (∀ q : ℚ, jsGet [("limit", vNum 500), ("offset", vNum 0),
          ("verbosity", vStr "summary")] "limit" = vNum q → ¬ 100 < q →
        jsGet out "limit" = vNum q) ∧
      (∀ k : String, k ≠ "limit" → k ≠ "startDate" → k ≠ "endDate" →
        jsGet out k = jsGet [("limit", vNum 500), ("offset", vNum 0),
          ("verbosity", vStr "summary")] k) ∧
      (jsFalsy (jsGet [("limit", vNum 500), ("offset", vNum 0),
          ("verbosity", vStr "summary")] "startDate") = true →
        jsFalsy (jsGet [("limit", vNum 500), ("offset", vNum 0),
          ("verbosity", vStr "summary")] "endDate") = true →
        jsGet out "startDate" = vStr (isoDateOfEpochDays (19754 - 30)) ∧
        jsGet out "endDate" = vStr (isoDateOfEpochDays 19754) ∧
        isYYYYMMDD (isoDateOfEpochDays (19754 - 30)) = true ∧
        isYYYYMMDD (isoDateOfEpochDays 19754) = true) ∧
      (jsFalsy (jsGet [("limit", vNum 500), ("offset", vNum 0),
          ("verbosity", vStr "summary")] "startDate") = false ∨
        jsFalsy (jsGet [("limit", vNum 500), ("offset", vNum 0),
          ("verbosity", vStr "summary")] "endDate") = false →
        jsGet out "startDate" = jsGet [("limit", vNum 500), ("offset", vNum 0),
          ("verbosity", vStr "summary")] "startDate" ∧
        jsGet out "endDate" = jsGet [("limit", vNum 500), ("offset", vNum 0),
          ("verbosity", vStr "summary")] "endDate") ∧
      parseSchema SchemaKind.txFilter (vObj [("limit", vNum 500)]) =
        .ok (vObj [("limit", vNum 500), ("offset", vNum 0),
          ("verbosity", vStr "summary")]) :=
  claim_C1_adapter "transactions_getTransactions"
    [("limit", vNum 500), ("offset", vNum 0), ("verbosity", vStr "summary")]
    19754 (by decide) (by decide) (by decide) (by decide) (by decide)
    (by decide)

/-- Claim C3: for every operation name matching the ById pattern the
derived schema is the single-required-string-`id` schema (its parse
succeeds exactly on inputs carrying a string `id` and yields only that
field), and the adapter on the corresponding identity key returns the
one-element positional list holding the `id` field value; in particular
`adapt("accounts_getById", (id := "abc"))` is `["abc"]`. -/
theorem claim_C3_byId (moduleName methodName : String) (r : JRecord) (today : Nat)
    (h : jsIncludes methodName "getById" = true ∨ jsIncludes methodName "ById" = true) :
    generateInputSchema moduleName methodName = SchemaKind.idLookup ∧
    (∀ (v out : Value), parseSchema SchemaKind.idLookup v = .ok out →
      ∃ s : String, out = vObj [("id", vStr s)]) ∧
    (∀ s : String, jsGet r "id" = vStr s →
      parseSchema SchemaKind.idLookup (vObj r) = .ok (vObj [("id", vStr s)])) ∧
    (∀ s : String, jsGet r "id" = vStr s →
      adaptArguments (moduleName ++ "_" ++ methodName) r today = [vStr s]) ∧
    adaptArguments "accounts_getById" [("id", vStr "abc")] 0 = [vStr "abc"] := by
  have hB : jsIncludes methodName "ById" = true := by
    cases h with
    | inl hg =>
      exact jsIncludes_trans hg (show jsIncludes "getById" "ById" = true by decide)
    | inr hb => exact hb
  refine ⟨?_, ?_, ?_, ?_, rfl⟩
  · simp [generateInputSchema, hB]
  · intro v out hp
    obtain ⟨rr, hv⟩ : ∃ rr, v = vObj rr := by
      cases v <;> first
        | exact ⟨_, rfl⟩
        | simp [parseSchema, expectObj, Except.instMonad, Except.bind] at hp
    subst hv
    cases hid : jsGet rr "id" with
    | vStr s =>
      simp [parseSchema, expectObj, reqStrField, Except.instMonad, Except.bind, hid] at hp
      exact ⟨s, hp.symm⟩
    | vUndef =>
      simp [parseSchema, expectObj, reqStrField, Except.instMonad, Except.bind, hid] at hp
    | vNull =>
      simp [parseSchema, expectObj, reqStrField, Except.instMonad, Except.bind, hid] at hp
    | vBool b =>
      simp [parseSchema, expectObj, reqStrField, Except.instMonad, Except.bind, hid] at hp
    | vNum q =>
      simp [parseSchema, expectObj, reqStrField, Except.instMonad, Except.bind, hid] at hp
    | vNaN =>
      simp [parseSchema, expectObj, reqStrField, Except.instMonad, Except.bind, hid] at hp
    | vArr l =>
      simp [parseSchema, expectObj, reqStrField, Except.instMonad, Except.bind, hid] at hp
    | vObj kvs =>
      simp [parseSchema, expectObj, reqStrField, Except.instMonad, Except.bind, hid] at hp
  · intro s hs
    simp [parseSchema, expectObj, reqStrField, Except.instMonad, Except.bind, hs]
  · intro s hs
    have hKey : jsIncludes (moduleName ++ "_" ++ methodName) "ById" = true :=
      jsIncludes_append_right hB
    have hnm := not_mem_noArg_of_ById hKey
    simp [adaptArguments, if_neg hnm, hKey, hs]

/-- Witness for C3 at `accounts.getById` with input `id = "abc"`. -/
theorem claim_C3_witness :
    generateInputSchema "accounts" "getById" = SchemaKind.idLookup ∧
    adaptArguments ("accounts" ++ "_" ++ "getById") [("id", vStr "abc")] 0 =
      [vStr "abc"] :=
  ⟨(claim_C3_byId "accounts" "getById" [("id", vStr "abc")] 0
      (Or.inl (by decide))).1,
   (claim_C3_byId "accounts" "getById" [("id", vStr "abc")] 0
      (Or.inl (by decide))).2.2.2.1 "abc" rfl⟩

lemma jsDedup_aux_nodup (l acc : List String) (hacc : acc.Nodup) :
    (l.foldl (fun acc a => if a ∈ acc then acc else acc ++ [a]) acc).Nodup := by
  induction l generalizing acc with
  | nil => simpa using hacc
  | cons x xs ih =>
    simp only [List.foldl_cons]
    by_cases hx : x ∈ acc
    · rw [if_pos hx]
      exact ih acc hacc
    · rw [if_neg hx]
      refine ih _ ?_
      simp [List.nodup_append, hacc, hx]

lemma jsDedup_nodup (l : List String) : (jsDedup l).Nodup :=
  jsDedup_aux_nodup l [] (by simp)

lemma string_append_inj {m a b : String} (h : m ++ a = m ++ b) : a = b := by
  have hd : (m ++ a).data = (m ++ b).data := congrArg String.data h
  rw [String.data_append, String.data_append] at hd
  have hab := List.append_cancel_left hd
  exact congrArg String.mk hab

def moduleTag (s : String) : List Char := s.data.takeWhile (fun c => c != '_')

lemma takeWhile_append_all {p : Char → Bool} (l1 l2 : List Char)
    (h : ∀ c ∈ l1, p c = true) :
    (l1 ++ l2).takeWhile p = l1 ++ l2.takeWhile p := by
  induction l1 with
  | nil => simp
  | cons c cs ih =>
    have hc : p c = true := h c (by simp)
    simp only [List.cons_append, List.takeWhile_cons, hc, if_true]
    rw [ih (fun d hd => h d (by simp [hd]))]

lemma moduleTag_append (m n : String) (hm : ∀ c ∈ m.data, (c != '_') = true) :
    moduleTag (m ++ "_" ++ n) = m.data := by
  unfold moduleTag
  have hdata : (m ++ "_" ++ n).data = m.data ++ ('_' :: n.data) := by
    rw [String.data_append, String.data_append]
    simp
  rw [hdata, takeWhile_append_all _ _ hm]
  simp [List.takeWhile_cons]

lemma toolsForModule_nodup (mods : List (String × List String)) (m : String) :
    (toolsForModule mods m).Nodup := by
  unfold toolsForModule
  cases hl : List.lookup m mods with
  | none => simp
  | some raw =>
    simp only []
    refine List.Nodup.map ?_ (((jsDedup_nodup raw).filter _))
    intro a b hab
    exact string_append_inj hab

lemma mem_toolsForModule {mods : List (String × List String)} {m name : String}
    (h : name ∈ toolsForModule mods m) : ∃ n, name = m ++ "_" ++ n := by
  unfold toolsForModule at h
  cases hl : List.lookup m mods with
  | none => rw [hl] at h; simp at h
  | some raw =>
    rw [hl] at h
    simp only [List.mem_map] at h
    obtain ⟨n, _, hn⟩ := h
    exact ⟨n, hn.symm⟩

lemma mem_moduleToolNamesAux {mods : List (String × List String)}
    {ms : List String} {name : String}
    (h : name ∈ moduleToolNamesAux mods ms) :
    ∃ m ∈ ms, name ∈ toolsForModule mods m := by
  induction ms with
  | nil => simp [moduleToolNamesAux] at h
  | cons m rest ih =>
    rw [moduleToolNamesAux] at h
    rcases List.mem_append.mp h with h1 | h2
    · exact ⟨m, by simp, h1⟩
    · obtain ⟨m2, hm2, hname⟩ := ih h2
      exact ⟨m2, by simp [hm2], hname⟩

lemma moduleToolNamesAux_nodup (mods : List (String × List String))
    (ms : List String)
    (hsub : ∀ m ∈ ms, ∀ c ∈ m.data, (c != '_') = true)
    (hms : ms.Nodup) :
    (moduleToolNamesAux mods ms).Nodup := by
  induction ms with
  | nil => simp [moduleToolNamesAux]
  | cons m rest ih =>
    rw [moduleToolNamesAux]
    rw [List.nodup_cons] at hms
    refine List.Nodup.append (toolsForModule_nodup mods m)
      (ih (fun x hx => hsub x (by simp [hx])) hms.2) ?_
    intro name hn1 hn2
    obtain ⟨a, ha⟩ := mem_toolsForModule hn1
    obtain ⟨m2, hm2, hname2⟩ := mem_moduleToolNamesAux hn2
    obtain ⟨b, hb⟩ := mem_toolsForModule hname2
    have hmu : ∀ c ∈ m.data, (c != '_') = true := hsub m (by simp)
    have hm2u : ∀ c ∈ m2.data, (c != '_') = true := hsub m2 (by simp [hm2])
    have heq : m ++ "_" ++ a = m2 ++ "_" ++ b := by rw [← ha, ← hb]
    have hdata : m.data = m2.data := by
      rw [← moduleTag_append m a hmu, ← moduleTag_append m2 b hm2u, heq]
    have hmm : m = m2 := congrArg String.mk hdata
    exact hms.1 (hmm ▸ hm2)

/-- Claim C4 (amended): the module-generated portion of the catalog plus
the synthesized smart-query tool contains no two Tool Definitions with
the same name, and the smart-query tool is appended only if no generated
tool with that exact name already exists (when one exists, nothing is
appended). Top-level client methods appended after this portion are not
checked against earlier names and can collide — see the counterexample.
-/
theorem claim_C4_amended (c : ClientShape) :
    (generatedToolNames c).Nodup ∧
    ("transactions_smartQuery" ∈ moduleToolNames c.modules →
      generatedToolNames c = moduleToolNames c.modules) := by
  have hnd : (moduleToolNames c.modules).Nodup :=
    moduleToolNamesAux_nodup c.modules sdkModules (by decide) (by decide)
  constructor
  · unfold generatedToolNames
    by_cases hsq : "transactions_smartQuery" ∈ moduleToolNames c.modules
    · have hcont : (moduleToolNames c.modules).contains "transactions_smartQuery" = true := by
        simpa [List.contains, List.elem_iff] using hsq
      rw [hcont]
      simp only [Bool.not_true, Bool.and_false, Bool.false_eq_true, if_false,
        List.append_nil]
      exact hnd
    · have hcont : (moduleToolNames c.modules).contains "transactions_smartQuery" = false := by
        rw [Bool.eq_false_iff]
        intro hc
        exact hsq (List.elem_iff.mp hc)
      rw [hcont]
      cases hIs : (List.lookup "transactions" c.modules).isSome with
      | false =>
        simp only [Bool.false_and, Bool.false_eq_true, if_false, List.append_nil]
        exact hnd
      | true =>
        simp only [Bool.not_false, Bool.true_and]
        rw [if_pos trivial]
        exact List.Nodup.append hnd (List.nodup_singleton _)
          (by
            intro x hx hx2
            simp only [List.mem_singleton] at hx2
            subst hx2
            exact hsq hx)
  · intro hsq
    have hcont : (moduleToolNames c.modules).contains "transactions_smartQuery" = true := by
      simpa [List.contains, List.elem_iff] using hsq
    unfold generatedToolNames
    rw [hcont]
    simp only [Bool.not_true, Bool.and_false, Bool.false_eq_true, if_false,
      List.append_nil]

/-- Counterexample to claim C4 as stated: a client whose transactions
module exposes `getTransactions` and which also carries a top-level
function property named `transactions_getTransactions` yields a catalog
with that name twice — direct client methods are appended without any
duplicate check. -/
theorem claim_C4_counterexample :
    ¬ (createToolNames ⟨[("transactions", ["getTransactions"])],
        ["transactions_getTransactions"]⟩).Nodup := by
  decide

/-- Witness for C4 (amended): a transactions module that itself exposes
a `smartQuery` method generates `transactions_smartQuery`, and the guard
then appends nothing. -/
theorem claim_C4_witness :
    generatedToolNames ⟨[("transactions", ["smartQuery"])], []⟩ =
      moduleToolNames [("transactions", ["smartQuery"])] :=
  (claim_C4_amended ⟨[("transactions", ["smartQuery"])], []⟩).2 (by decide)
